import Mathlib

/-!
Verification development for the NIfTI annotator (`annotator.py`).

The embedding below translates the core state and handlers of class
`NiiExplorer` into Lean:

* `Axis`, `Volume`, `extent` — the axis enumeration and the 3-D volume
  shape (pixel data is decoded/rendered by external collaborators; the
  core logic only consults `data.shape`).
* `Slider` — the Qt slider state used by the handlers.  The Qt
  method `QAbstractSlider.setValue` clamps into `[minimum, maximum]`; the code
  never touches `minimum`, which stays at the Qt default `0`, so the model
  fixes `minimum = 0`.
* `Record`, `AnnStore` — the in-memory annotation mapping
  `self.annotations` (filename → per-axis index lists), modelled as an
  association list so that Python-dict insertion order is kept.
* `Json` — the JSON value model for the persisted `annotations.json`
  document.  The text-level parsing done by `json.load` is the external
  `json` library; the content of a file is embedded as `Option Json`, where `none`
  stands for a `JSONDecodeError`.
* The handlers `wheelEvent`, `on_file_changed`, `on_axis_changed`,
  `update_slider`, `on_slice_changed`, `update_view`, `annotate_page`,
  `update_annotation_display`, `save_annotations`,
  `load_existing_annotations` follow the source line by line; purely
  graphical effects (matplotlib drawing, text-box refresh) are dropped,
  state changes and raised errors are kept.
-/

/-- The axis combo box holds exactly `["axial", "coronal", "sagittal"]`. -/
inductive Axis where
  | sagittal
  | coronal
  | axial
deriving DecidableEq, Repr

/-- `axis_idx` embeds the lookup `{"sagittal":0, "coronal":1, "axial":2}[self.axis]`
(`update_slider`, line 156). -/
def axis_idx : Axis → Fin 3
  | Axis.sagittal => 0
  | Axis.coronal => 1
  | Axis.axial => 2

/-- A decoded volume, reduced to its shape `(X, Y, Z)`: the core logic
reads only `self.data.shape`; pixel data goes straight to the renderer. -/
structure Volume where
  shapeX : Nat
  shapeY : Nat
  shapeZ : Nat
deriving DecidableEq, Repr

/-- `self.data.shape[i]` for `i < 3`. -/
def Volume.dim (v : Volume) : Fin 3 → Nat
  | 0 => v.shapeX
  | 1 => v.shapeY
  | 2 => v.shapeZ

/-- The extent of the volume along the dimension bound to an axis:
`self.data.shape[axis_idx]`. -/
def extent (v : Volume) (a : Axis) : Nat := v.dim (axis_idx a)

/-- Qt slider state.  The code never calls `setMinimum`, so the minimum
stays at the Qt default `0` and is fixed in the model.  Initial Qt state:
`maximum = 99`, `value = 0`; the code disables the slider in `init_ui`. -/
structure Slider where
  maximum : Int
  value : Int
  enabled : Bool
deriving DecidableEq, Repr

/-- Qt semantics of `QAbstractSlider.setValue`: the value is clamped
into `[minimum, maximum]` (here `minimum = 0`). -/
def Slider.setValue (s : Slider) (v : Int) : Slider :=
  { s with value := max 0 (min v s.maximum) }

/-- Qt semantics of `QAbstractSlider.setMaximum`: the maximum is set and
the current value is re-clamped into the new range. -/
def Slider.setMaximum (s : Slider) (m : Int) : Slider :=
  { s with maximum := m, value := max 0 (min s.value m) }

def Slider.setEnabled (s : Slider) (b : Bool) : Slider :=
  { s with enabled := b }

/-- The annotation record of one file `{"axial": [...], "coronal": [...],
"sagittal": [...]}` (`annotate_page`, line 197). -/
structure Record where
  axialL : List Int
  coronalL : List Int
  sagittalL : List Int
deriving DecidableEq, Repr

/-- The record with three empty axis lists. -/
def Record.emptyRec : Record := ⟨[], [], []⟩

/-- `record[axis]`. -/
def Record.get (r : Record) : Axis → List Int
  | Axis.axial => r.axialL
  | Axis.coronal => r.coronalL
  | Axis.sagittal => r.sagittalL

/-- `record[axis] = l`. -/
def Record.set (r : Record) (a : Axis) (l : List Int) : Record :=
  match a with
  | Axis.axial => { r with axialL := l }
  | Axis.coronal => { r with coronalL := l }
  | Axis.sagittal => { r with sagittalL := l }

/-- `self.annotations`: a Python dict filename → record, modelled as an
association list in insertion order (dict keys are unique; lookups find
the first matching key). -/
abbrev AnnStore := List (String × Record)

/-- `filename in self.annotations` / `self.annotations.get(filename)`:
first match in insertion order. -/
def AnnStore.find : AnnStore → String → Option Record
  | [], _ => none
  | (k, r) :: rest, key => if k = key then some r else AnnStore.find rest key

/-- In-place update `self.annotations[filename] = ...` of an existing
key: rewrite the first entry whose key matches. -/
def AnnStore.modifyRecord : AnnStore → String → (Record → Record) → AnnStore
  | [], _, _ => []
  | (k, r) :: rest, key, g =>
    if k = key then (k, g r) :: rest
    else (k, r) :: AnnStore.modifyRecord rest key g

/-- The body of `annotate_page` lines 199-201: Python
`list.sort()` sorts ascending (embedded as insertion sort; on distinct
integers any stable ascending sort yields the same list), so
`if idx not in l: l.append(idx); l.sort()`. -/
def confirmList (l : List Int) (idx : Int) : List Int :=
  if idx ∈ l then l else List.insertionSort (· ≤ ·) (l ++ [idx])

/-- Insert `idx` into the axis list of one record (`annotate_page`
lines 199-201). -/
def Record.confirm (r : Record) (a : Axis) (idx : Int) : Record :=
  Record.set r a (confirmList (Record.get r a) idx)

/-- The store-level effect of `annotate_page` lines 196-201: ensure a
record exists for `filename` (dict insertion appends), then insert
`idx` into its `axis` list.  This is the `confirm(f, a, i)` operation named by the spec. -/
def storeConfirm (ann : AnnStore) (filename : String) (a : Axis) (idx : Int) : AnnStore :=
  let ann' := if (AnnStore.find ann filename).isNone
              then ann ++ [(filename, Record.emptyRec)]
              else ann
  AnnStore.modifyRecord ann' filename (fun r => Record.confirm r a idx)

/-- A sequence of confirm operations applied in order to a store. -/
def confirmSeq (ann : AnnStore) (ops : List (String × Axis × Int)) : AnnStore :=
  ops.foldl (fun s op => storeConfirm s op.1 op.2.1 op.2.2) ann

/-- The read performed by `update_annotation_display` line 211:
`self.annotations.get(filename, {"axial": [], "coronal": [], "sagittal": []})`.
This is the `describe(filename)` operation named by the spec. -/
def describe (ann : AnnStore) (f : String) : Record :=
  (AnnStore.find ann f).getD Record.emptyRec

/-- JSON values, the model of the persisted document format. -/
inductive Json where
  | null
  | bool (b : Bool)
  | num (n : Int)
  | str (s : String)
  | arr (elems : List Json)
  | obj (fields : List (String × Json))

/-- Serialization of one axis list by `json.dump`. -/
def encodeIntList (l : List Int) : Json := Json.arr (l.map Json.num)

/-- Serialization of one record by `json.dump`: keys in the insertion
order of line 197. -/
def encodeRecord (r : Record) : Json :=
  Json.obj [("axial", encodeIntList r.axialL),
            ("coronal", encodeIntList r.coronalL),
            ("sagittal", encodeIntList r.sagittalL)]

/-- Serialization of the whole mapping by `json.dump(self.annotations)`
(`save_annotations`, line 233): dict insertion order is kept. -/
def encodeStore (ann : AnnStore) : Json :=
  Json.obj (ann.map (fun kr => (kr.1, encodeRecord kr.2)))

/-- The top-level keys of a serialized mapping. -/
def jsonKeys : Json → List String
  | Json.obj kvs => kvs.map Prod.fst
  | _ => []

/-- Reading one JSON number back as an integer (persisted-format
interpretation, spec section 6). -/
def decodeNum : Json → Option Int
  | Json.num n => some n
  | _ => none

/-- Reading a list of JSON numbers back (persisted-format
interpretation, spec section 6). -/
def decodeNums : List Json → Option (List Int)
  | [] => some []
  | j :: rest =>
    match decodeNum j with
    | some n => (decodeNums rest).map (fun l => n :: l)
    | none => none

/-- Reading one axis list back (persisted-format interpretation,
spec section 6). -/
def decodeIntList : Json → Option (List Int)
  | Json.arr xs => decodeNums xs
  | _ => none

/-- Reading one record back (persisted-format interpretation, spec
section 6: the three fixed axis keys). -/
def decodeRecord : Json → Option Record
  | Json.obj [("axial", a), ("coronal", c), ("sagittal", s)] =>
    match decodeIntList a, decodeIntList c, decodeIntList s with
    | some la, some lc, some ls => some ⟨la, lc, ls⟩
    | _, _, _ => none
  | _ => none

/-- Reading the entries of a persisted mapping back (persisted-format
interpretation, spec section 6). -/
def decodeEntries : List (String × Json) → Option AnnStore
  | [] => some []
  | (k, j) :: rest =>
    match decodeRecord j with
    | some r => (decodeEntries rest).map (fun s => (k, r) :: s)
    | none => none

/-- Reading a persisted mapping back as an annotation store
(persisted-format interpretation, spec section 6). -/
def decodeStore : Json → Option AnnStore
  | Json.obj kvs => decodeEntries kvs
  | _ => none

/-- `load_existing_annotations` lines 130-137, for a given folder state:
`exists_` is `os.path.exists(annotations_path)`, `content` is the result
of `json.load` on the file (`none` models a `JSONDecodeError`), and
`annotations` is the current `self.annotations` value.  Returns the new
`self.annotations` value and whether the warning
`"Failed to parse annotations.json"` was printed.  Note the code assigns
whatever `json.load` returns, with no shape validation. -/
def load_existing_annotations (exists_ : Bool) (content : Option Json) (annotations : Json) :
    Json × Bool :=
  if exists_ then
    match content with
    | some j => (j, false)
    | none => (annotations, true)
  else (annotations, false)

/-- The `NiiExplorer` session state: the attributes read or written by
the handlers.  `axisAttr` is the `self.axis` attribute, which does not
exist (`none`) until `on_file_changed` or `on_axis_changed` first sets
it; `axisCombo` is the current text of the combo box; `currentItem` is
the current item of the file list.  `zoom` is the spin box value (percent). -/
structure Explorer where
  data : Option Volume
  axisCombo : Axis
  axisAttr : Option Axis
  slider : Slider
  sliceIndex : Option Int
  zoom : Int
  anns : AnnStore
  currentItem : Option String

/-- State after `__init__` / `init_ui`, before any folder is opened:
`self.data = None`, `self.annotations = {}`, combo at its first item
"axial" (the handler is connected only after `addItems`, so `self.axis`
stays unset), slider at Qt defaults and disabled, zoom at 100%. -/
def initExplorer : Explorer :=
  { data := none
    axisCombo := Axis.axial
    axisAttr := none
    slider := { maximum := 99, value := 0, enabled := false }
    sliceIndex := none
    zoom := 100
    anns := []
    currentItem := none }

/-- `update_slider` lines 155-160, given `self.axis = a` and
`self.data = v` (both set at every call site): `setMaximum(max_idx)`,
`setEnabled(True)`, `setValue(max_idx // 2)`.  Python `//` is floor
division, which for the nonnegative divisor 2 agrees with the Lean
integer division. -/
def update_slider (v : Volume) (a : Axis) (s : Slider) : Slider :=
  let max_idx : Int := (extent v a : Int) - 1
  Slider.setValue (Slider.setEnabled (Slider.setMaximum s max_idx) true) (max_idx / 2)

/-- `on_slice_changed` lines 162-165: records `self.slice_index` when a
volume is loaded (`update_view` redraws; its state effect is modelled
separately). -/
def on_slice_changed (st : Explorer) (idx : Int) : Explorer :=
  match st.data with
  | none => st
  | some _ => { st with sliceIndex := some idx }

/-- Driving the slider to `i` (slider drag, or programmatic
`setValue`): Qt clamps the value and emits `valueChanged` — which runs
`on_slice_changed` — only when the stored value actually changes. -/
def sliderSetValue (st : Explorer) (i : Int) : Explorer :=
  let old := st.slider.value
  let s' := Slider.setValue st.slider i
  let st' := { st with slider := s' }
  if s'.value = old then st' else on_slice_changed st' s'.value

/-- `wheelEvent` lines 103-111: inert when no volume is loaded or the
slider is disabled; otherwise steps the slider by plus or minus one,
explicitly clamped into `[0, maximum]`.  `up` is `angleDelta().y() > 0`. -/
def wheelEvent (st : Explorer) (up : Bool) : Explorer :=
  match st.data with
  | none => st
  | some _ =>
    if !st.slider.enabled then st
    else
      let step : Int := if up then 1 else -1
      let new_value := st.slider.value + step
      let new_value := max 0 (min new_value st.slider.maximum)
      sliderSetValue st new_value

/-- `on_axis_changed` lines 149-153: always stores the new axis (the
combo text has already changed); recomputes the slider and view only
when a volume is loaded. -/
def on_axis_changed (st : Explorer) (a : Axis) : Explorer :=
  let st' := { st with axisCombo := a, axisAttr := some a }
  match st'.data with
  | none => st'
  | some v =>
    let st'' := { st' with slider := update_slider v a st'.slider }
    { st'' with sliceIndex :=
        if st''.slider.value = st'.slider.value then st'.sliceIndex
        else some st''.slider.value }

/-- `on_file_changed` lines 139-147: on a real selection, decode the
volume (`nib.load(path).get_fdata()` is the external decoder; `v` is
its result), refresh `self.axis` from the combo, and rebuild the
slider.  The previous slice position is never consulted. -/
def on_file_changed (st : Explorer) (current : Option String) (v : Volume) : Explorer :=
  match current with
  | none => st
  | some file =>
    let st' := { st with currentItem := some file, data := some v,
                         axisAttr := some st.axisCombo }
    let st'' := { st' with slider := update_slider v st'.axisCombo st'.slider }
    { st'' with sliceIndex :=
        if st''.slider.value = st'.slider.value then st'.sliceIndex
        else some st''.slider.value }

/-- The data `update_view` hands to the renderer: the slice position,
the title text, and the unscaled slice shape (the zoom factor scales
only the drawn extent). -/
structure ViewResult where
  viewAxis : Axis
  viewIdx : Int
  sliceW : Nat
  sliceH : Nat
deriving DecidableEq, Repr

/-- Shape of `self.data[:, :, idx]` / `self.data[:, idx, :]` /
`self.data[idx, :, :]` (lines 172-177). -/
def sliceShape (v : Volume) : Axis → Nat × Nat
  | Axis.axial => (v.shapeX, v.shapeY)
  | Axis.coronal => (v.shapeX, v.shapeZ)
  | Axis.sagittal => (v.shapeY, v.shapeZ)

/-- `update_view` lines 167-185.  Line 168 reads `self.axis`
(`AttributeError` when it was never set); lines 172-177 subscript
`self.data` (`TypeError` when it is `None`; `IndexError` when the index
is outside the range numpy accepts — numpy wraps indices in
`[-dim, dim)`).  Drawing itself is the external renderer. -/
def update_view (st : Explorer) : Except String ViewResult :=
  match st.axisAttr with
  | none => Except.error "AttributeError: NiiExplorer object has no attribute axis"
  | some a =>
    let idx := st.slider.value
    match st.data with
    | none => Except.error "TypeError: NoneType object is not subscriptable"
    | some v =>
      let e : Int := (extent v a : Int)
      if idx < -e ∨ e ≤ idx then Except.error "IndexError"
      else
        let dims := sliceShape v a
        Except.ok { viewAxis := a, viewIdx := idx, sliceW := dims.1, sliceH := dims.2 }

/-- `annotate_page` lines 187-203: no-op without a current item;
otherwise confirm `(filename, combo axis, slider value)` into the
store. -/
def annotate_page (st : Explorer) : Explorer :=
  match st.currentItem with
  | none => st
  | some filename =>
    { st with anns := storeConfirm st.anns filename st.axisCombo st.slider.value }

/-- `save_annotations` lines 230-233: the JSON document
`json.dump(self.annotations, f, indent=4)` writes to
`annotations.json` (file I/O is external; the document is what is
serialized). -/
def save_annotations (st : Explorer) : Json :=
  encodeStore st.anns

/-! ## The C1 scenario: two files, one confirmation -/

/-- The session of claim C1: the opened folder holds "a.ext" and
"b.ext"; the user selects "a.ext" (the decoder returns a volume of
shape `(10, 20, 30)`), scrolls the axial slider to index 4 and confirms
it; "b.ext" is never selected and never confirmed, so the store never
hears about it. -/
def scenarioC1 : Explorer :=
  annotate_page (sliderSetValue (on_file_changed initExplorer (some "a.ext") ⟨10, 20, 30⟩) 4)

/-- C1, counterexample: the claim says `exportAll` then serializes a
mapping that contains both "a.ext" and "b.ext" as keys.  In the code,
records are created only lazily inside `annotate_page` (line 196), so
the exported mapping of the scenario has "a.ext" as its only key and
"b.ext" does not occur. -/
theorem export_omits_unconfirmed_file :
    jsonKeys (save_annotations scenarioC1) = ["a.ext"]
    ∧ "b.ext" ∉ jsonKeys (save_annotations scenarioC1) := by
  constructor
  · rfl
  · decide

/-- C1, amended: in the two-file scenario with only axial index 4 of
"a.ext" confirmed, `exportAll` serializes a mapping whose only key is
"a.ext", mapped to axial list `[4]` and empty coronal and sagittal
lists; "b.ext" has no entry at all — the all-empty record for "b.ext"
exists only as the default that `describe` returns for display. -/
theorem export_after_single_confirm :
    save_annotations scenarioC1
      = Json.obj [("a.ext", Json.obj
          [("axial", Json.arr [Json.num 4]),
           ("coronal", Json.arr []),
           ("sagittal", Json.arr [])])]
    ∧ describe scenarioC1.anns "b.ext" = Record.emptyRec := by
  constructor
  · rfl
  · rfl

/-! ## C2: operations before any volume is loaded -/

/-- C2 (code bug): the claim says every operation other than `load`
is a no-op before a volume is loaded.  `on_slice_changed` and
`wheelEvent` are indeed guarded, but a zoom change is wired straight to
`update_view` (line 83), which has no guard: before any load it raises
(`self.axis` is not yet set; with the axis set but `self.data = None`,
line 173 subscripts `None`).  So changing the zoom with no volume
loaded raises instead of being a no-op. -/
theorem zoom_change_before_load_raises :
    update_view initExplorer
      = Except.error "AttributeError: NiiExplorer object has no attribute axis"
    ∧ update_view (on_axis_changed initExplorer Axis.coronal)
      = Except.error "TypeError: NoneType object is not subscriptable"
    ∧ on_slice_changed initExplorer 5 = initExplorer
    ∧ wheelEvent initExplorer true = initExplorer := by
  exact ⟨rfl, rfl, rfl, rfl⟩

/-! ## C8 and C9: loading the persisted file -/

/-- A file whose content is the text `[1, 2, 3]`: valid JSON, but not
in the persisted mapping format. -/
def wrongShapeJson : Json := Json.arr [Json.num 1, Json.num 2, Json.num 3]

/-- C8, counterexample: the claim says every content that is not
parseable as the persisted mapping format leaves the store empty with a
warning.  The code only catches `json.JSONDecodeError` (line 136):
content that parses as JSON but is not in the mapping format — here
`[1, 2, 3]` — is assigned to `self.annotations` wholesale, with no
warning, leaving the store non-empty. -/
theorem wrong_shape_content_is_loaded :
    decodeStore wrongShapeJson = none
    ∧ load_existing_annotations true (some wrongShapeJson) (Json.obj [])
        = (wrongShapeJson, false)
    ∧ wrongShapeJson ≠ Json.obj [] := by
  refine ⟨rfl, rfl, fun h => Json.noConfusion h⟩

/-- C8, amended: only content that fails JSON parsing altogether
(`JSONDecodeError`, modelled as `content = none`) leaves the store
empty and prints the parse warning; content that parses as JSON is
assigned to the store unchanged and unvalidated, with no warning,
whether or not it is in the persisted mapping format. -/
theorem malformed_load_amended :
    load_existing_annotations true none (Json.obj []) = (Json.obj [], true)
    ∧ ∀ j : Json, load_existing_annotations true (some j) (Json.obj []) = (j, false) := by
  exact ⟨rfl, fun j => rfl⟩

/-- C9: when no `annotations.json` exists at the path, the
`os.path.exists` guard (line 132) skips the load entirely: the store
stays empty and no warning or error is reported, whatever a read of
the path would have produced. -/
theorem missing_file_load_is_silent (content : Option Json) :
    load_existing_annotations false content (Json.obj []) = (Json.obj [], false) := rfl

/-! ## C3, C6, C10: clamping and midpoint reset -/

/-- Driving the slider never touches anything but the stored value:
the state effect of a `setIndex` request on the slider is exactly the
Qt clamp. -/
theorem sliderSetValue_slider (st : Explorer) (i : Int) :
    (sliderSetValue st i).slider = Slider.setValue st.slider i := by
  simp only [sliderSetValue, on_slice_changed]
  split
  · rfl
  · cases st.data <;> rfl

/-- With a volume loaded, `on_axis_changed` rebuilds the slider through
`update_slider`. -/
theorem on_axis_changed_slider (st : Explorer) (v : Volume) (a : Axis)
    (h : st.data = some v) :
    (on_axis_changed st a).slider = update_slider v a st.slider := by
  simp only [on_axis_changed, h]

/-- `on_file_changed` on a real selection rebuilds the slider through
`update_slider` for the combo axis. -/
theorem on_file_changed_slider (st : Explorer) (f : String) (v : Volume) :
    (on_file_changed st (some f) v).slider = update_slider v st.axisCombo st.slider := by
  simp only [on_file_changed]

/-- C3: for a loaded volume and selected axis, requesting slice index
`i` and reading the current index back yields
`max(0, min(i, extent - 1))`: out-of-range requests are clamped, never
wrapped and never a failure. -/
theorem setIndex_reads_back_clamped (st : Explorer) (v : Volume) (a : Axis) (i : Int)
    (hdata : st.data = some v) :
    (sliderSetValue (on_axis_changed st a) i).slider.value
      = max 0 (min i ((extent v a : Int) - 1)) := by
  rw [sliderSetValue_slider, on_axis_changed_slider st v a hdata]
  simp [Slider.setValue, update_slider, Slider.setMaximum, Slider.setEnabled]

/-- Witness for C3 at a concrete state: volume of shape `(10, 20, 30)`,
axial axis (extent 30), overshooting request 99 reads back as 29. -/
theorem setIndex_reads_back_clamped_witness :
    (sliderSetValue (on_axis_changed { initExplorer with data := some ⟨10, 20, 30⟩ }
        Axis.axial) 99).slider.value = 29 := by
  have h := setIndex_reads_back_clamped { initExplorer with data := some ⟨10, 20, 30⟩ }
    ⟨10, 20, 30⟩ Axis.axial 99 rfl
  simpa using h

/-- C6: switching axis with a volume loaded resets the current index
to the midpoint `(extent - 1) // 2` of the new axis, which lies within
`[0, extent - 1]`; the previous index never survives the switch. -/
theorem axis_switch_resets_to_midpoint (st : Explorer) (v : Volume) (a : Axis)
    (hdata : st.data = some v) (hext : 1 ≤ extent v a) :
    (on_axis_changed st a).slider.value = ((extent v a : Int) - 1) / 2
    ∧ 0 ≤ (on_axis_changed st a).slider.value
    ∧ (on_axis_changed st a).slider.value ≤ (extent v a : Int) - 1 := by
  rw [on_axis_changed_slider st v a hdata]
  simp only [update_slider, Slider.setValue, Slider.setMaximum, Slider.setEnabled]
  refine ⟨?_, ?_, ?_⟩ <;> omega

/-- Witness for C6: shape `(10, 20, 30)`, switching to coronal
(extent 20) lands on index 9. -/
theorem axis_switch_resets_to_midpoint_witness :
    (on_axis_changed { initExplorer with data := some ⟨10, 20, 30⟩ }
        Axis.coronal).slider.value = 9 := by
  have h := axis_switch_resets_to_midpoint { initExplorer with data := some ⟨10, 20, 30⟩ }
    ⟨10, 20, 30⟩ Axis.coronal rfl (by decide)
  simpa using h.1

/-- C10: selecting a file always resets the slice index to
`(extent(currentAxis) - 1) // 2` for the newly decoded volume,
whatever the previous slider position was — also when the axis
selection is unchanged. -/
theorem file_switch_resets_to_midpoint (st : Explorer) (f : String) (v : Volume)
    (hext : 1 ≤ extent v st.axisCombo) :
    (on_file_changed st (some f) v).slider.value
      = ((extent v st.axisCombo : Int) - 1) / 2 := by
  rw [on_file_changed_slider]
  simp only [update_slider, Slider.setValue, Slider.setMaximum, Slider.setEnabled]
  omega

/-- Witness for C10: from a session that was viewing axial slice 4 of
"a.ext", selecting "c.ext" (decoded shape `(9, 20, 31)`, axial extent
31) lands on index 15, not 4. -/
theorem file_switch_resets_to_midpoint_witness :
    (on_file_changed (sliderSetValue (on_file_changed initExplorer (some "a.ext")
        ⟨10, 20, 30⟩) 4) (some "c.ext") ⟨9, 20, 31⟩).slider.value = 15 := by
  have h := file_switch_resets_to_midpoint (sliderSetValue (on_file_changed initExplorer
    (some "a.ext") ⟨10, 20, 30⟩) 4) "c.ext" ⟨9, 20, 31⟩ (by decide)
  simpa using h

/-! ## C4: confirm is idempotent -/

/-- A freshly inserted index is a member of the resulting list. -/
theorem mem_confirmList (l : List Int) (i : Int) : i ∈ confirmList l i := by
  unfold confirmList
  by_cases h : i ∈ l
  · simp [h]
  · simp only [h, if_false]
    exact (List.perm_insertionSort (· ≤ ·) (l ++ [i])).mem_iff.mpr (by simp)

/-- Confirming an index that is already present leaves the list
untouched. -/
theorem confirmList_of_mem {l : List Int} {i : Int} (h : i ∈ l) : confirmList l i = l := by
  simp [confirmList, h]

theorem Record.get_set (r : Record) (a : Axis) (l : List Int) :
    Record.get (Record.set r a l) a = l := by
  cases a <;> rfl

theorem Record.set_set (r : Record) (a : Axis) (l₁ l₂ : List Int) :
    Record.set (Record.set r a l₁) a l₂ = Record.set r a l₂ := by
  cases a <;> rfl

/-- Confirming the same `(axis, index)` twice into one record equals
confirming it once. -/
theorem Record.confirm_confirm (r : Record) (a : Axis) (i : Int) :
    Record.confirm (Record.confirm r a i) a i = Record.confirm r a i := by
  unfold Record.confirm
  rw [Record.get_set, confirmList_of_mem (mem_confirmList _ _), Record.set_set]

/-- Appending a fresh key at the back is where a lookup for that key
lands when the key was absent. -/
theorem find_append_self {s : AnnStore} {f : String} (h : AnnStore.find s f = none)
    (r : Record) : AnnStore.find (s ++ [(f, r)]) f = some r := by
  induction s with
  | nil => simp [AnnStore.find]
  | cons e rest ih =>
    obtain ⟨k, r'⟩ := e
    by_cases hk : k = f
    · simp [AnnStore.find, hk] at h
    · simp only [List.cons_append, AnnStore.find, hk, if_false]
      simp only [AnnStore.find, hk, if_false] at h
      exact ih h

/-- Modifying a key that only occurs as the appended last entry
rewrites exactly that entry. -/
theorem modifyRecord_append_self {s : AnnStore} {f : String}
    (h : AnnStore.find s f = none) (r : Record) (g : Record → Record) :
    AnnStore.modifyRecord (s ++ [(f, r)]) f g = s ++ [(f, g r)] := by
  induction s with
  | nil => simp [AnnStore.modifyRecord]
  | cons e rest ih =>
    obtain ⟨k, r'⟩ := e
    by_cases hk : k = f
    · simp [AnnStore.find, hk] at h
    · simp only [List.cons_append, AnnStore.modifyRecord, hk, if_false]
      simp only [AnnStore.find, hk, if_false] at h
      exact congrArg (fun t => (k, r') :: t) (ih h)

/-- A lookup after an in-place modification sees the modified record. -/
theorem find_modifyRecord (s : AnnStore) (f : String) (g : Record → Record) :
    AnnStore.find (AnnStore.modifyRecord s f g) f = (AnnStore.find s f).map g := by
  induction s with
  | nil => rfl
  | cons e rest ih =>
    obtain ⟨k, r⟩ := e
    by_cases hk : k = f
    · simp [AnnStore.modifyRecord, AnnStore.find, hk]
    · simp only [AnnStore.modifyRecord, hk, if_false, AnnStore.find]
      exact ih

/-- Two in-place modifications of the same key compose. -/
theorem modifyRecord_modifyRecord (s : AnnStore) (f : String) (g₁ g₂ : Record → Record) :
    AnnStore.modifyRecord (AnnStore.modifyRecord s f g₁) f g₂
      = AnnStore.modifyRecord s f (fun r => g₂ (g₁ r)) := by
  induction s with
  | nil => rfl
  | cons e rest ih =>
    obtain ⟨k, r⟩ := e
    by_cases hk : k = f
    · simp [AnnStore.modifyRecord, hk]
    · simp only [AnnStore.modifyRecord, hk, if_false, List.cons.injEq, true_and]
      exact ih

/-- In-place modification only cares about the pointwise behaviour of
the update function. -/
theorem modifyRecord_congr (s : AnnStore) (f : String) {g₁ g₂ : Record → Record}
    (h : ∀ r, g₁ r = g₂ r) :
    AnnStore.modifyRecord s f g₁ = AnnStore.modifyRecord s f g₂ := by
  induction s with
  | nil => rfl
  | cons e rest ih =>
    obtain ⟨k, r⟩ := e
    by_cases hk : k = f
    · simp [AnnStore.modifyRecord, hk, h r]
    · simp only [AnnStore.modifyRecord, hk, if_false, List.cons.injEq, true_and]
      exact ih

/-- C4: `confirm` is idempotent — confirming the same
`(filename, axis, index)` triple twice in succession leaves the store
in exactly the state one confirmation produces. -/
theorem confirm_idempotent (s : AnnStore) (f : String) (a : Axis) (i : Int) :
    storeConfirm (storeConfirm s f a i) f a i = storeConfirm s f a i := by
  unfold storeConfirm
  cases hfind : AnnStore.find s f with
  | none =>
    simp only [hfind, Option.isNone_none, if_true]
    rw [modifyRecord_append_self hfind]
    have h1 : AnnStore.find (s ++ [(f, Record.confirm Record.emptyRec a i)]) f
        = some (Record.confirm Record.emptyRec a i) := find_append_self hfind _
    simp only [h1, Option.isNone_some, Bool.false_eq_true, if_false]
    rw [modifyRecord_append_self hfind, Record.confirm_confirm]
  | some r =>
    simp only [hfind, Option.isNone_some, Bool.false_eq_true, if_false]
    have h1 : AnnStore.find (AnnStore.modifyRecord s f
        (fun r => Record.confirm r a i)) f = some (Record.confirm r a i) := by
      rw [find_modifyRecord, hfind]
      rfl
    simp only [h1, Option.isNone_some, Bool.false_eq_true, if_false]
    rw [modifyRecord_modifyRecord]
    exact modifyRecord_congr s f (fun r => Record.confirm_confirm r a i)

/-! ## C5: per-axis lists stay duplicate-free and ascending -/

/-- Strictly ascending lists stay strictly ascending under
`confirmList`: inserting an absent index and re-sorting keeps the list
sorted and free of duplicates. -/
theorem sorted_confirmList {l : List Int} (h : List.Sorted (· < ·) l) (i : Int) :
    List.Sorted (· < ·) (confirmList l i) := by
  unfold confirmList
  by_cases hm : i ∈ l
  · simpa [hm]
  · simp only [hm, if_false]
    have hperm := List.perm_insertionSort (· ≤ ·) (l ++ [i])
    have hsorted : List.Sorted (· ≤ ·) (List.insertionSort (· ≤ ·) (l ++ [i])) :=
      List.sorted_insertionSort _ _
    have hnodup : (List.insertionSort (· ≤ ·) (l ++ [i])).Nodup := by
      refine hperm.nodup_iff.mpr ?_
      simp [List.nodup_append, h.nodup, hm]
    exact List.Sorted.lt_of_le hsorted hnodup

/-- All three axis lists of a record are strictly ascending. -/
def RecordWF (r : Record) : Prop := ∀ a : Axis, List.Sorted (· < ·) (Record.get r a)

/-- Every record stored in the mapping is well-formed. -/
def StoreWF (s : AnnStore) : Prop := ∀ p ∈ s, RecordWF p.2

theorem recordWF_emptyRec : RecordWF Record.emptyRec := by
  intro a
  cases a <;> exact List.sorted_nil

theorem Record.get_set_ne (r : Record) {a b : Axis} (h : b ≠ a) (l : List Int) :
    Record.get (Record.set r a l) b = Record.get r b := by
  cases a <;> cases b <;> first | rfl | exact (h rfl).elim

/-- Confirming preserves well-formedness of a record. -/
theorem recordWF_confirm {r : Record} (h : RecordWF r) (a : Axis) (i : Int) :
    RecordWF (Record.confirm r a i) := by
  intro b
  unfold Record.confirm
  by_cases hab : b = a
  · subst hab
    rw [Record.get_set]
    exact sorted_confirmList (h b) i
  · rw [Record.get_set_ne _ hab]
    exact h b

theorem storeWF_append_empty {s : AnnStore} (h : StoreWF s) (f : String) :
    StoreWF (s ++ [(f, Record.emptyRec)]) := by
  intro p hp
  rcases List.mem_append.mp hp with hp | hp
  · exact h p hp
  · rcases List.mem_singleton.mp hp with rfl
    exact recordWF_emptyRec

theorem storeWF_modifyRecord {s : AnnStore} (h : StoreWF s) (f : String)
    {g : Record → Record} (hg : ∀ r, RecordWF r → RecordWF (g r)) :
    StoreWF (AnnStore.modifyRecord s f g) := by
  induction s with
  | nil => exact h
  | cons e rest ih =>
    obtain ⟨k, r⟩ := e
    have hrest : StoreWF rest := fun p hp => h p (List.mem_cons_of_mem _ hp)
    by_cases hk : k = f
    · simp only [AnnStore.modifyRecord, hk, if_true]
      intro p hp
      rcases List.mem_cons.mp hp with rfl | hp
      · exact hg r (h (k, r) (List.mem_cons_self _ _))
      · exact hrest p hp
    · simp only [AnnStore.modifyRecord, hk, if_false]
      intro p hp
      rcases List.mem_cons.mp hp with rfl | hp
      · exact h (k, r) (List.mem_cons_self _ _)
      · exact ih hrest p hp

/-- One confirm preserves well-formedness of the whole store. -/
theorem storeWF_confirm {s : AnnStore} (h : StoreWF s) (f : String) (a : Axis) (i : Int) :
    StoreWF (storeConfirm s f a i) := by
  unfold storeConfirm
  split
  · exact storeWF_modifyRecord (storeWF_append_empty h f) f
      (fun r hr => recordWF_confirm hr a i)
  · exact storeWF_modifyRecord h f (fun r hr => recordWF_confirm hr a i)

/-- Any sequence of confirms starting from a well-formed store yields a
well-formed store. -/
theorem storeWF_confirmSeq {s : AnnStore} (h : StoreWF s)
    (ops : List (String × Axis × Int)) : StoreWF (confirmSeq s ops) := by
  induction ops generalizing s with
  | nil => exact h
  | cons op rest ih => exact ih (storeWF_confirm h op.1 op.2.1 op.2.2)

/-- A successful lookup returns a stored record. -/
theorem find_some_mem {s : AnnStore} {f : String} {r : Record}
    (h : AnnStore.find s f = some r) : (f, r) ∈ s := by
  induction s with
  | nil => exact absurd h (by simp [AnnStore.find])
  | cons e rest ih =>
    obtain ⟨k, r'⟩ := e
    by_cases hk : k = f
    · subst hk
      simp only [AnnStore.find, if_true] at h
      have hr : r' = r := Option.some.inj h
      subst hr
      exact List.mem_cons_self _ _
    · simp only [AnnStore.find, hk, if_false] at h
      exact List.mem_cons_of_mem _ (ih h)

/-- `describe` of a well-formed store always shows a well-formed
record. -/
theorem recordWF_describe {s : AnnStore} (h : StoreWF s) (f : String) :
    RecordWF (describe s f) := by
  unfold describe
  cases hfind : AnnStore.find s f with
  | none => exact recordWF_emptyRec
  | some r => exact h (f, r) (find_some_mem hfind)

/-- C5: after any sequence of confirm operations on an initially empty
store, every per-axis index list shown by `describe` is duplicate-free
and in ascending numeric order; in particular, confirming axial
indices `[5, 1, 3]` in that order for "f" makes the axial list
`[1, 3, 5]`. -/
theorem confirm_lists_sorted_and_nodup :
    (∀ (ops : List (String × Axis × Int)) (f : String) (a : Axis),
        (Record.get (describe (confirmSeq [] ops) f) a).Nodup
        ∧ List.Sorted (· ≤ ·) (Record.get (describe (confirmSeq [] ops) f) a))
    ∧ Record.get (describe (confirmSeq []
        [("f", Axis.axial, 5), ("f", Axis.axial, 1), ("f", Axis.axial, 3)]) "f")
        Axis.axial = [1, 3, 5] := by
  constructor
  · intro ops f a
    have hwf : StoreWF (confirmSeq [] ops) :=
      storeWF_confirmSeq (fun p hp => absurd hp (List.not_mem_nil p)) ops
    have h := recordWF_describe hwf f a
    exact ⟨h.nodup, h.imp (fun hab => le_of_lt hab)⟩
  · rfl

/-! ## C7: export and load round-trip -/

theorem decodeNums_encode (l : List Int) : decodeNums (l.map Json.num) = some l := by
  induction l with
  | nil => rfl
  | cons n rest ih => simp [decodeNums, decodeNum, ih]

theorem decodeIntList_encode (l : List Int) :
    decodeIntList (encodeIntList l) = some l := by
  simp [decodeIntList, encodeIntList, decodeNums_encode]

theorem decodeRecord_encode (r : Record) : decodeRecord (encodeRecord r) = some r := by
  simp [decodeRecord, encodeRecord, decodeIntList_encode]

theorem decodeEntries_encode (s : AnnStore) :
    decodeEntries (s.map (fun kr => (kr.1, encodeRecord kr.2))) = some s := by
  induction s with
  | nil => rfl
  | cons kr rest ih =>
    obtain ⟨k, r⟩ := kr
    simp [decodeEntries, decodeRecord_encode, ih]

/-- Decoding undoes encoding on every store: the persisted document
keeps exactly the filename keys (in order) and the per-axis lists. -/
theorem decodeStore_encodeStore (s : AnnStore) : decodeStore (encodeStore s) = some s := by
  simp [decodeStore, encodeStore, decodeEntries_encode]

/-- C7: exporting all annotations and re-loading the produced document
into a fresh session reproduces the store exactly — the loaded value
is the serialized mapping itself, and reading it back as a store gives
the same filename keys and the same per-axis ordered index lists. -/
theorem export_load_round_trip (st : Explorer) :
    (load_existing_annotations true (some (save_annotations st)) (Json.obj [])).1
      = encodeStore st.anns
    ∧ decodeStore
        (load_existing_annotations true (some (save_annotations st)) (Json.obj [])).1
      = some st.anns := by
  exact ⟨rfl, decodeStore_encodeStore st.anns⟩
